import Mathlib

/-!
Shallow embedding of the shape catalog of src/shapes.rs and its emission of
path-builder commands, followed by theorems about the emitted command
sequences. Coordinates (Rust f32) are modelled as real numbers; the path
builder is modelled as the list of commands issued to it so far, and each
add_geometry implementation is a function appending its commands to that
list. The one fatal precondition (the assert in RegularPolygon::add_geometry)
is modelled with Except: the error value carries the builder exactly as it
was at the moment of the panic, before any command was appended.
-/

noncomputable section

namespace BevyLyon

open Real

/-- 2D vector, the embedding of bevy Vec2 with real coordinates. -/
structure Vec2 where
  x : ℝ
  y : ℝ

/-- The path-builder point type, the embedding of the lyon Point. -/
structure Point where
  x : ℝ
  y : ℝ

/-- Vec2::zero. -/
def Vec2.zero : Vec2 := ⟨0, 0⟩

/-- Vec2::one. -/
def Vec2.one : Vec2 := ⟨1, 1⟩

/-- The Convert helper of utils: identity on coordinates, a pure
representation change from the host vector type to the builder point type. -/
def Vec2.convert (v : Vec2) : Point := ⟨v.x, v.y⟩

/-- The Winding enumeration of the builder interface. -/
inductive Winding
  | positive
  | negative

/-- One command of the minimal builder interface the shapes call:
add_rectangle, add_circle, add_ellipse and add_polygon, with the arguments
the source passes (the Rect of add_rectangle decomposed into its origin
point and its width and height, the ellipse rotation as a real angle). -/
inductive Cmd
  | add_rectangle (origin : Point) (width height : ℝ) (w : Winding)
  | add_circle (center : Point) (radius : ℝ) (w : Winding)
  | add_ellipse (center : Point) (radii : Point) (rotation : ℝ) (w : Winding)
  | add_polygon (points : List Point) (closed : Bool)

/-- The builder state: the sequence of commands committed so far. -/
abbrev Builder := List Cmd

/-- RectangleOrigin of shapes.rs. -/
inductive RectangleOrigin
  | Center
  | BottomLeft
  | BottomRight
  | TopRight
  | TopLeft
  | CustomCenter (c : Vec2)

/-- Default for RectangleOrigin: Center. -/
def RectangleOrigin.default : RectangleOrigin := .Center

/-- Rectangle of shapes.rs. -/
structure Rectangle where
  width : ℝ
  height : ℝ
  origin : RectangleOrigin

/-- Default for Rectangle: 1 by 1, centered. -/
def Rectangle.default : Rectangle := ⟨1, 1, RectangleOrigin.default⟩

/-- Rectangle::add_geometry: compute the origin point from the origin mode,
then issue one add_rectangle command with positive winding. -/
def Rectangle.add_geometry (s : Rectangle) (b : Builder) : Builder :=
  let origin : Point :=
    match s.origin with
    | .Center => ⟨-s.width / 2, -s.height / 2⟩
    | .BottomLeft => ⟨0, 0⟩
    | .BottomRight => ⟨-s.width, 0⟩
    | .TopRight => ⟨-s.width, -s.height⟩
    | .TopLeft => ⟨0, -s.height⟩
    | .CustomCenter v => ⟨v.x - s.width / 2, v.y - s.height / 2⟩
  b ++ [Cmd.add_rectangle origin s.width s.height Winding.positive]

/-- Circle of shapes.rs. -/
structure Circle where
  radius : ℝ
  center : Vec2

/-- Default for Circle: radius 1, centered at zero. -/
def Circle.default : Circle := ⟨1, Vec2.zero⟩

/-- Circle::add_geometry: one add_circle command, positive winding. -/
def Circle.add_geometry (s : Circle) (b : Builder) : Builder :=
  b ++ [Cmd.add_circle s.center.convert s.radius Winding.positive]

/-- Ellipse of shapes.rs. -/
structure Ellipse where
  radii : Vec2
  center : Vec2

/-- Default for Ellipse: radii one, centered at zero. -/
def Ellipse.default : Ellipse := ⟨Vec2.one, Vec2.zero⟩

/-- Ellipse::add_geometry: one add_ellipse command, zero rotation angle,
positive winding. -/
def Ellipse.add_geometry (s : Ellipse) (b : Builder) : Builder :=
  b ++ [Cmd.add_ellipse s.center.convert s.radii.convert 0 Winding.positive]

/-- Polygon of shapes.rs. -/
structure Polygon where
  points : List Vec2
  closed : Bool

/-- Default for Polygon: no points, closed. -/
def Polygon.default : Polygon := ⟨[], true⟩

/-- Polygon::add_geometry: convert the points in order and issue one
add_polygon command with the closed flag taken from the shape. -/
def Polygon.add_geometry (s : Polygon) (b : Builder) : Builder :=
  b ++ [Cmd.add_polygon (s.points.map Vec2.convert) s.closed]

/-- RegularPolygonFeature of shapes.rs. -/
inductive RegularPolygonFeature
  | Radius (r : ℝ)
  | Apothem (a : ℝ)
  | SideLength (s : ℝ)

/-- RegularPolygon of shapes.rs. -/
structure RegularPolygon where
  sides : ℕ
  center : Vec2
  feature : RegularPolygonFeature

/-- RegularPolygon::radius: the circumradius derived from the feature,
with ratio pi / sides. -/
def RegularPolygon.radius (p : RegularPolygon) : ℝ :=
  let ratio := π / (p.sides : ℝ)
  match p.feature with
  | .Radius r => r
  | .Apothem a => a * Real.tan ratio / Real.sin ratio
  | .SideLength s => s / (2 * Real.sin ratio)

/-- Default for RegularPolygon: 3 sides, centered at zero, Radius 1. -/
def RegularPolygon.default : RegularPolygon := ⟨3, Vec2.zero, .Radius 1⟩

/-- The vertex list built by the loop of RegularPolygon::add_geometry:
internal is the internal angle, offset rotates the bottom edge flat, step is
the angle between consecutive vertices; vertex i is
(radius * cos(i * step + offset) + center.x,
 radius * sin(i * step + offset) + center.y). -/
def RegularPolygon.vertices (p : RegularPolygon) : List Point :=
  let n : ℝ := (p.sides : ℝ)
  let radius := p.radius
  let internal := (n - 2) * π / n
  let offset := -internal / 2
  let step := 2 * π / n
  (List.range p.sides).map fun (i : ℕ) =>
    let cur_angle := (i : ℝ) * step + offset
    ⟨radius * Real.cos cur_angle + p.center.x,
     radius * Real.sin cur_angle + p.center.y⟩

/-- RegularPolygon::add_geometry: asserts sides > 2, then issues one closed
add_polygon command with the computed vertices. The assert precedes every
append, so on failure the error carries the builder unchanged. -/
def RegularPolygon.add_geometry (p : RegularPolygon) (b : Builder) :
    Except Builder Builder :=
  if 2 < p.sides then
    .ok (b ++ [Cmd.add_polygon p.vertices true])
  else
    .error b

/-- Line of shapes.rs: a segment given by two points. -/
structure Line where
  a : Vec2
  b : Vec2

/-- Line::add_geometry: one open add_polygon command with the two converted
endpoints in order. -/
def Line.add_geometry (s : Line) (b : Builder) : Builder :=
  b ++ [Cmd.add_polygon [s.a.convert, s.b.convert] false]

/-- The closed catalog of shapes implementing the Geometry capability. -/
inductive Shape
  | rectangle (r : Rectangle)
  | circle (c : Circle)
  | ellipse (e : Ellipse)
  | polygon (p : Polygon)
  | regularPolygon (p : RegularPolygon)
  | line (l : Line)

/-- Dispatch of the Geometry capability over the catalog; the infallible
implementations are wrapped in ok. -/
def Shape.add_geometry : Shape → Builder → Except Builder Builder
  | .rectangle r, b => .ok (r.add_geometry b)
  | .circle c, b => .ok (c.add_geometry b)
  | .ellipse e, b => .ok (e.add_geometry b)
  | .polygon p, b => .ok (p.add_geometry b)
  | .regularPolygon p, b => p.add_geometry b
  | .line l, b => .ok (l.add_geometry b)

/-- Euclidean distance between an emitted point and a shape center. -/
def euclideanDist (p : Point) (c : Vec2) : ℝ :=
  Real.sqrt ((p.x - c.x) ^ 2 + (p.y - c.y) ^ 2)

instance : Inhabited Point := ⟨⟨0, 0⟩⟩

/-- For at least 3 sides the feature ratio pi / sides has positive sine. -/
theorem sin_ratio_pos (n : ℕ) (h : 3 ≤ n) : 0 < Real.sin (π / (n : ℝ)) := by
  have hn : (0 : ℝ) < (n : ℝ) := by
    have : (3 : ℝ) ≤ (n : ℝ) := by exact_mod_cast h
    linarith
  have h1 : (1 : ℝ) < (n : ℝ) := by
    have : (3 : ℝ) ≤ (n : ℝ) := by exact_mod_cast h
    linarith
  exact Real.sin_pos_of_pos_of_lt_pi (div_pos Real.pi_pos hn)
    (div_lt_self Real.pi_pos h1)

/-- For at least 3 sides the feature ratio pi / sides has positive cosine. -/
theorem cos_ratio_pos (n : ℕ) (h : 3 ≤ n) : 0 < Real.cos (π / (n : ℝ)) := by
  have h2 : (2 : ℝ) < (n : ℝ) := by
    have : (3 : ℝ) ≤ (n : ℝ) := by exact_mod_cast h
    linarith
  have hn : (0 : ℝ) < (n : ℝ) := by linarith
  have hlt : π / (n : ℝ) < π / 2 :=
    div_lt_div_of_pos_left Real.pi_pos (by norm_num) h2
  have hpos : 0 < π / (n : ℝ) := div_pos Real.pi_pos hn
  exact Real.cos_pos_of_mem_Ioo ⟨by linarith, hlt⟩

/-- The vertex list depends only on the side count, the center and the
derived circumradius. -/
theorem vertices_congr (p q : RegularPolygon) (hs : p.sides = q.sides)
    (hc : p.center = q.center) (hr : p.radius = q.radius) :
    p.vertices = q.vertices := by
  unfold RegularPolygon.vertices
  rw [hs, hc, hr]

/-- A point offset from the center by (dx, dy) is at distance
sqrt (dx ^ 2 + dy ^ 2) from it. -/
theorem euclideanDist_offset (c : Vec2) (dx dy : ℝ) :
    euclideanDist ⟨dx + c.x, dy + c.y⟩ c = Real.sqrt (dx ^ 2 + dy ^ 2) := by
  show Real.sqrt ((dx + c.x - c.x) ^ 2 + (dy + c.y - c.y) ^ 2) = _
  congr 1
  ring

/-- Every vertex emitted for a RegularPolygon lies at distance equal to the
absolute value of the derived circumradius from the center. -/
theorem vertex_mem_dist (p : RegularPolygon) (v : Point)
    (hv : v ∈ p.vertices) : euclideanDist v p.center = |p.radius| := by
  simp only [RegularPolygon.vertices, List.mem_map, List.mem_range] at hv
  obtain ⟨i, hi, rfl⟩ := hv
  rw [euclideanDist_offset]
  have key : ∀ a : ℝ,
      (p.radius * Real.cos a) ^ 2 + (p.radius * Real.sin a) ^ 2 =
        p.radius ^ 2 := by
    intro a
    linear_combination p.radius ^ 2 * Real.sin_sq_add_cos_sq a
  rw [key, Real.sqrt_sq_eq_abs]

/-- C2: for every RegularPolygon, with ratio pi / sides, the derived
circumradius is exactly v for Radius(v), v * tan(ratio) / sin(ratio) for
Apothem(v), and v / (2 * sin(ratio)) for SideLength(v). -/
theorem radius_feature_formula (sides : ℕ) (center : Vec2) (v : ℝ) :
    (RegularPolygon.mk sides center (.Radius v)).radius = v ∧
    (RegularPolygon.mk sides center (.Apothem v)).radius =
      v * Real.tan (π / (sides : ℝ)) / Real.sin (π / (sides : ℝ)) ∧
    (RegularPolygon.mk sides center (.SideLength v)).radius =
      v / (2 * Real.sin (π / (sides : ℝ))) :=
  ⟨rfl, rfl, rfl⟩

/-- C5: every Rectangle emits exactly one add_rectangle command, with
positive winding, the given width and height, and the anchor determined by
the origin mode as the claim tabulates. -/
theorem rectangle_emission (w h : ℝ) (o : RectangleOrigin) (b : Builder) :
    (Rectangle.mk w h o).add_geometry b =
      b ++ [Cmd.add_rectangle
        (match o with
          | .Center => ⟨-w / 2, -h / 2⟩
          | .BottomLeft => ⟨0, 0⟩
          | .BottomRight => ⟨-w, 0⟩
          | .TopRight => ⟨-w, -h⟩
          | .TopLeft => ⟨0, -h⟩
          | .CustomCenter c => ⟨c.x - w / 2, c.y - h / 2⟩)
        w h Winding.positive] := by
  cases o <;> rfl

/-- C3: for a fixed side count of at least 3 and any r, the features
Radius(r), Apothem(r * cos(pi / sides)) and SideLength(2 * r * sin(pi / sides))
all derive the same circumradius r, and the three polygons emit the same
vertex sequence. -/
theorem feature_cross_consistency (sides : ℕ) (center : Vec2) (r : ℝ)
    (h : 3 ≤ sides) :
    (RegularPolygon.mk sides center (.Radius r)).radius = r ∧
    (RegularPolygon.mk sides center
        (.Apothem (r * Real.cos (π / (sides : ℝ))))).radius = r ∧
    (RegularPolygon.mk sides center
        (.SideLength (2 * r * Real.sin (π / (sides : ℝ))))).radius = r ∧
    (RegularPolygon.mk sides center
        (.Apothem (r * Real.cos (π / (sides : ℝ))))).vertices =
      (RegularPolygon.mk sides center (.Radius r)).vertices ∧
    (RegularPolygon.mk sides center
        (.SideLength (2 * r * Real.sin (π / (sides : ℝ))))).vertices =
      (RegularPolygon.mk sides center (.Radius r)).vertices := by
  have hs := (sin_ratio_pos sides h).ne'
  have hc := (cos_ratio_pos sides h).ne'
  have h1 : (RegularPolygon.mk sides center (.Radius r)).radius = r := rfl
  have h2 : (RegularPolygon.mk sides center
      (.Apothem (r * Real.cos (π / (sides : ℝ))))).radius = r := by
    show r * Real.cos (π / (sides : ℝ)) * Real.tan (π / (sides : ℝ)) /
        Real.sin (π / (sides : ℝ)) = r
    rw [Real.tan_eq_sin_div_cos]
    field_simp
    ring
  have h3 : (RegularPolygon.mk sides center
      (.SideLength (2 * r * Real.sin (π / (sides : ℝ))))).radius = r := by
    show 2 * r * Real.sin (π / (sides : ℝ)) /
        (2 * Real.sin (π / (sides : ℝ))) = r
    field_simp
    ring
  exact ⟨h1, h2, h3,
    vertices_congr _ _ rfl rfl (h2.trans h1.symm),
    vertices_congr _ _ rfl rfl (h3.trans h1.symm)⟩

/-- Witness for feature_cross_consistency at sides = 3, center (0, 0),
r = 1. -/
theorem feature_cross_consistency_witness :
    3 ≤ 3 ∧
    ((RegularPolygon.mk 3 ⟨0, 0⟩ (.Radius 1)).radius = 1 ∧
      (RegularPolygon.mk 3 ⟨0, 0⟩
          (.Apothem (1 * Real.cos (π / ((3 : ℕ) : ℝ))))).radius = 1 ∧
      (RegularPolygon.mk 3 ⟨0, 0⟩
          (.SideLength (2 * 1 * Real.sin (π / ((3 : ℕ) : ℝ))))).radius = 1 ∧
      (RegularPolygon.mk 3 ⟨0, 0⟩
          (.Apothem (1 * Real.cos (π / ((3 : ℕ) : ℝ))))).vertices =
        (RegularPolygon.mk 3 ⟨0, 0⟩ (.Radius 1)).vertices ∧
      (RegularPolygon.mk 3 ⟨0, 0⟩
          (.SideLength (2 * 1 * Real.sin (π / ((3 : ℕ) : ℝ))))).vertices =
        (RegularPolygon.mk 3 ⟨0, 0⟩ (.Radius 1)).vertices) :=
  ⟨by decide, feature_cross_consistency 3 ⟨0, 0⟩ 1 (by decide)⟩

/-- C1 (amended): for sides at least 3 the emission succeeds with exactly
one closed add_polygon command carrying exactly sides vertices, vertex i
being center + circumradius * (cos(i * step + offset), sin(i * step + offset))
with step = 2 * pi / sides and offset = -((sides - 2) * pi / sides) / 2; and
every emitted vertex lies at Euclidean distance equal to the absolute value
of the circumradius from the center (the circumradius itself whenever it is
nonnegative). -/
theorem regularPolygon_emission (p : RegularPolygon) (b : Builder)
    (h : 3 ≤ p.sides) :
    p.add_geometry b = .ok (b ++ [Cmd.add_polygon p.vertices true]) ∧
    p.vertices.length = p.sides ∧
    (∀ i, i < p.sides →
      p.vertices[i]? = some
        ⟨p.center.x + p.radius *
            Real.cos ((i : ℝ) * (2 * π / (p.sides : ℝ)) +
              -(((p.sides : ℝ) - 2) * π / (p.sides : ℝ)) / 2),
         p.center.y + p.radius *
            Real.sin ((i : ℝ) * (2 * π / (p.sides : ℝ)) +
              -(((p.sides : ℝ) - 2) * π / (p.sides : ℝ)) / 2)⟩) ∧
    (∀ v ∈ p.vertices, euclideanDist v p.center = |p.radius|) := by
  refine ⟨?_, ?_, ?_, fun v hv => vertex_mem_dist p v hv⟩
  · simp [RegularPolygon.add_geometry, show 2 < p.sides from by omega]
  · simp only [RegularPolygon.vertices, List.length_map, List.length_range]
  · intro i hi
    simp only [RegularPolygon.vertices]
    rw [List.getElem?_map, List.getElem?_range hi]
    simp only [Option.map_some', Option.some.injEq, Point.mk.injEq]
    constructor <;> ring

/-- Witness for regularPolygon_emission at the triangle with radius 1
centered at the origin, on a fresh builder. -/
theorem regularPolygon_emission_witness :
    3 ≤ (RegularPolygon.mk 3 ⟨0, 0⟩ (.Radius 1)).sides ∧
    ((RegularPolygon.mk 3 ⟨0, 0⟩ (.Radius 1)).add_geometry [] =
        .ok ([] ++ [Cmd.add_polygon
          (RegularPolygon.mk 3 ⟨0, 0⟩ (.Radius 1)).vertices true]) ∧
      (RegularPolygon.mk 3 ⟨0, 0⟩ (.Radius 1)).vertices.length =
        (RegularPolygon.mk 3 ⟨0, 0⟩ (.Radius 1)).sides ∧
      (∀ i, i < (RegularPolygon.mk 3 ⟨0, 0⟩ (.Radius 1)).sides →
        (RegularPolygon.mk 3 ⟨0, 0⟩ (.Radius 1)).vertices[i]? = some
          ⟨(RegularPolygon.mk 3 ⟨0, 0⟩ (.Radius 1)).center.x +
              (RegularPolygon.mk 3 ⟨0, 0⟩ (.Radius 1)).radius *
              Real.cos ((i : ℝ) *
                  (2 * π / (((RegularPolygon.mk 3 ⟨0, 0⟩ (.Radius 1)).sides : ℝ)) ) +
                -((((RegularPolygon.mk 3 ⟨0, 0⟩ (.Radius 1)).sides : ℝ) - 2) * π /
                    (((RegularPolygon.mk 3 ⟨0, 0⟩ (.Radius 1)).sides : ℝ))) / 2),
           (RegularPolygon.mk 3 ⟨0, 0⟩ (.Radius 1)).center.y +
              (RegularPolygon.mk 3 ⟨0, 0⟩ (.Radius 1)).radius *
              Real.sin ((i : ℝ) *
                  (2 * π / (((RegularPolygon.mk 3 ⟨0, 0⟩ (.Radius 1)).sides : ℝ)) ) +
                -((((RegularPolygon.mk 3 ⟨0, 0⟩ (.Radius 1)).sides : ℝ) - 2) * π /
                    (((RegularPolygon.mk 3 ⟨0, 0⟩ (.Radius 1)).sides : ℝ))) / 2)⟩) ∧
      (∀ v ∈ (RegularPolygon.mk 3 ⟨0, 0⟩ (.Radius 1)).vertices,
        euclideanDist v (RegularPolygon.mk 3 ⟨0, 0⟩ (.Radius 1)).center =
          |(RegularPolygon.mk 3 ⟨0, 0⟩ (.Radius 1)).radius|)) :=
  ⟨by decide, regularPolygon_emission (RegularPolygon.mk 3 ⟨0, 0⟩ (.Radius 1)) []
    (by decide)⟩

/-- C1 counterexample: the 3-sided polygon with feature Radius(-1) meets the
sides precondition, its first emitted vertex is among its vertices, yet that
vertex lies at Euclidean distance 1 from the center, not at the derived
circumradius -1. -/
theorem regularPolygon_distance_counterexample :
    3 ≤ (RegularPolygon.mk 3 ⟨0, 0⟩ (.Radius (-1))).sides ∧
    (RegularPolygon.mk 3 ⟨0, 0⟩ (.Radius (-1))).vertices.head! ∈
      (RegularPolygon.mk 3 ⟨0, 0⟩ (.Radius (-1))).vertices ∧
    euclideanDist (RegularPolygon.mk 3 ⟨0, 0⟩ (.Radius (-1))).vertices.head!
        (RegularPolygon.mk 3 ⟨0, 0⟩ (.Radius (-1))).center ≠
      (RegularPolygon.mk 3 ⟨0, 0⟩ (.Radius (-1))).radius := by
  have hne : (RegularPolygon.mk 3 ⟨0, 0⟩ (.Radius (-1))).vertices ≠ [] := by
    simp [RegularPolygon.vertices, List.range_succ]
  have hmem := List.head!_mem_self hne
  refine ⟨by decide, hmem, ?_⟩
  rw [vertex_mem_dist _ _ hmem]
  have hr : (RegularPolygon.mk 3 ⟨0, 0⟩ (.Radius (-1))).radius = -1 := rfl
  rw [hr]
  norm_num

/-- C4: RegularPolygon emission with fewer than 3 sides, for any center and
feature, hits the fatal precondition and aborts with the builder command
sequence unchanged; with sides = 3 it does not, and succeeds. -/
theorem regularPolygon_precondition (p : RegularPolygon) (b : Builder) :
    (p.sides < 3 → p.add_geometry b = .error b) ∧
    (p.sides = 3 →
      p.add_geometry b = .ok (b ++ [Cmd.add_polygon p.vertices true])) := by
  constructor
  · intro hlt
    simp [RegularPolygon.add_geometry, show ¬2 < p.sides from by omega]
  · intro h3
    simp [RegularPolygon.add_geometry, show 2 < p.sides from by omega]

/-- Witness for regularPolygon_precondition: the 2-sided polygon aborts on a
fresh builder leaving it empty, and the 3-sided polygon succeeds. -/
theorem regularPolygon_precondition_witness :
    (RegularPolygon.mk 2 ⟨0, 0⟩ (.Radius 1)).add_geometry [] = .error [] ∧
    (RegularPolygon.mk 3 ⟨0, 0⟩ (.Radius 1)).add_geometry [] =
      .ok ([] ++ [Cmd.add_polygon
        (RegularPolygon.mk 3 ⟨0, 0⟩ (.Radius 1)).vertices true]) :=
  ⟨(regularPolygon_precondition (RegularPolygon.mk 2 ⟨0, 0⟩ (.Radius 1)) []).1
      (by decide),
   (regularPolygon_precondition (RegularPolygon.mk 3 ⟨0, 0⟩ (.Radius 1)) []).2
      rfl⟩

/-- C6: every Polygon emits exactly one add_polygon command whose payload is
the converted input points in order with the same count, and whose closed
flag equals the closed field; an empty point sequence yields an empty
payload. -/
theorem polygon_emission (pts : List Vec2) (c : Bool) (b : Builder) :
    (Polygon.mk pts c).add_geometry b =
        b ++ [Cmd.add_polygon (pts.map Vec2.convert) c] ∧
    (pts.map Vec2.convert).length = pts.length ∧
    (∀ i : ℕ, (pts.map Vec2.convert)[i]? = (pts[i]?).map Vec2.convert) ∧
    (Polygon.mk [] c).add_geometry b = b ++ [Cmd.add_polygon [] c] :=
  ⟨rfl, by simp, fun i => by simp, rfl⟩

/-- C7: every Line emits exactly one open add_polygon command with the two
converted endpoints in order; in particular the line from (0,0) to (1,1)
emits the open 2-point polygon command with points (0,0) then (1,1). -/
theorem line_emission (p q : Vec2) (b : Builder) :
    (Line.mk p q).add_geometry b =
        b ++ [Cmd.add_polygon [p.convert, q.convert] false] ∧
    (Line.mk ⟨0, 0⟩ ⟨1, 1⟩).add_geometry b =
      b ++ [Cmd.add_polygon [⟨0, 0⟩, ⟨1, 1⟩] false] :=
  ⟨rfl, rfl⟩

/-- C8: every Circle emits exactly one add_circle command with the converted
center, the unmodified radius and positive winding, and every Ellipse emits
exactly one add_ellipse command with the converted center, the unmodified
radii, zero rotation and positive winding; the equations hold for every
radius value, so non-positive values pass through with no error. -/
theorem circle_ellipse_emission (r : ℝ) (c rad : Vec2) (b : Builder) :
    (Circle.mk r c).add_geometry b =
        b ++ [Cmd.add_circle c.convert r Winding.positive] ∧
    (Ellipse.mk rad c).add_geometry b =
        b ++ [Cmd.add_ellipse c.convert rad.convert 0 Winding.positive] :=
  ⟨rfl, rfl⟩

/-- C9: emission of any catalog shape appends a command sequence that is a
pure function of the shape fields: on any builder it appends exactly what it
appends to a fresh builder, so two calls on two fresh builders append
identical sequences. -/
theorem emission_deterministic (s : Shape) (b : Builder) :
    s.add_geometry b =
      match s.add_geometry [] with
      | .ok out => .ok (b ++ out)
      | .error e => .error (b ++ e) := by
  cases s with
  | rectangle r => simp [Shape.add_geometry, Rectangle.add_geometry]
  | circle c => simp [Shape.add_geometry, Circle.add_geometry]
  | ellipse e => simp [Shape.add_geometry, Ellipse.add_geometry]
  | polygon p => simp [Shape.add_geometry, Polygon.add_geometry]
  | regularPolygon p =>
      by_cases hp : 2 < p.sides <;>
        simp [Shape.add_geometry, RegularPolygon.add_geometry, hp]
  | line l => simp [Shape.add_geometry, Line.add_geometry]

/-- C10: the default shapes are the empty closed Polygon, the RegularPolygon
with 3 sides centered at zero with Radius 1, the Circle with radius 1
centered at zero, and the Ellipse with radii (1,1) centered at zero; the
default RegularPolygon meets the sides precondition, and emitting any
default-constructed catalog shape succeeds without the fatal path. -/
theorem default_shapes (b : Builder) :
    Polygon.default = ⟨[], true⟩ ∧
    RegularPolygon.default = ⟨3, ⟨0, 0⟩, .Radius 1⟩ ∧
    Circle.default = ⟨1, ⟨0, 0⟩⟩ ∧
    Ellipse.default = ⟨⟨1, 1⟩, ⟨0, 0⟩⟩ ∧
    3 ≤ RegularPolygon.default.sides ∧
    (∃ out, (Shape.regularPolygon RegularPolygon.default).add_geometry b =
      .ok out) ∧
    (∃ out, (Shape.polygon Polygon.default).add_geometry b = .ok out) ∧
    (∃ out, (Shape.circle Circle.default).add_geometry b = .ok out) ∧
    (∃ out, (Shape.ellipse Ellipse.default).add_geometry b = .ok out) ∧
    (∃ out, (Shape.rectangle Rectangle.default).add_geometry b = .ok out) :=
  ⟨rfl, rfl, rfl, rfl, by decide,
   ⟨_, rfl⟩, ⟨_, rfl⟩, ⟨_, rfl⟩, ⟨_, rfl⟩, ⟨_, rfl⟩⟩

end BevyLyon
